import Mathlib

/-!
Verification of the agent turn-loop / handoff subsystem of the hubgpt
repository.  The subsystem exists in three near-duplicate implementations:
`run_team.py`, `team_chat.py` and `auto_agent.py`.  Each is shallowly
embedded below: Python dicts with optional keys become structures with
`Option` fields, in-place list mutation becomes explicit threading of the
message list, the remote completion API becomes an oracle (a list of
scripted outcomes), and the random uuid/shortuuid generators become
explicit key-supply parameters (their uniqueness contract appears as
freshness hypotheses where a theorem needs it).
-/

namespace HubGpt

/-- Truthiness of an optional string, as Python evaluates `args.get(k)`:
a missing key (`none`) and the empty string are falsy, every other string
is truthy. -/
def truthy : Option String → Bool
  | none => false
  | some s => !(s == "")

/-- Parsed arguments of a model-requested tool call (`json.loads` of
`tool_call.function.arguments`).  Only the keys consumed by the built-in
tools of the three implementations are modelled; a field is `none` when
the key is absent from the JSON payload. -/
structure ToolArgs where
  work_done : Option String := none
  handoff : Option String := none
  agent_name : Option String := none
  report : Option String := none
  summary : Option String := none
deriving Repr, DecidableEq

/-- One requested tool invocation from a model response
(`tc.id`, `tc.function.name`, parsed `tc.function.arguments`). -/
structure ToolCall where
  id : String
  name : String
  args : ToolArgs
deriving Repr, DecidableEq

/-- One entry of the message history.  The Python implementations store
messages as dicts with a varying key set; every optional key that any of
the three implementations reads or writes is a field here, `none` when the
key is absent.  `content` is `Option String` because the completion API
can deliver `content = null`; the code is supposed to normalise it before
storage. -/
structure Message where
  role : String
  content : Option String := none
  tool_calls : List ToolCall := []
  work_done_key : Option String := none
  tool_call_id : Option String := none
  handoff : Option String := none
  agent_name : Option String := none
  work_done : Option String := none
deriving Repr, DecidableEq

/-- Python `msg.get("content", "")` (with `None` also mapped to the empty
string where the code would stringify it). -/
def contentStr (m : Message) : String := m.content.getD ""

/-- An agent record (`Agent` class of all three implementations): display
name, system instructions, allowed tool names, model id.  `run_team.py`
stores tool callables and `team_chat.py` stores tool names; both reduce to
the list of tool names. -/
structure Agent where
  name : String
  instructions : String
  tools : List String
  model : String := "openai/gpt-4o-mini"
deriving Repr, DecidableEq

/-- The `agents` dict built by `create_agents` from the (external) team
configuration: agent id to agent record. -/
abbrev AgentRegistry := List (String × Agent)

/-- Python `agents[agent_id]` lookup, `none` standing for `KeyError`. -/
def lookup_agent (reg : AgentRegistry) (id : String) : Option Agent :=
  (reg.find? (fun p => p.1 == id)).map (fun p => p.2)

/-- Result of a successfully executed tool call: either an agent transfer
(the Python code returns an `Agent` instance, detected by `isinstance`) or
ordinary data (a string result). -/
inductive ToolResult where
  | transfer (a : Agent)
  | data (payload : String)
deriving Repr, DecidableEq

/-- The exceptions `execute_tool_call` can raise, mapped to the error
taxonomy of the specification.  `invalidHandoff` stands for the
`Exception` raised when a handoff tool lacks a required argument;
`noFinalReport` for the one raised when `final_outcome` finds no linked
work product; `unknownTool` for a `KeyError` on the tool table;
`unknownAgent` for a `KeyError` on the `agents` dict; `badArguments` for a
`TypeError` when `**args` does not match the callable signature. -/
inductive ToolError where
  | invalidHandoff
  | noFinalReport
  | unknownTool
  | unknownAgent
  | badArguments
deriving Repr, DecidableEq

/-- The `Response` dataclass shared by the three implementations. -/
structure Response where
  agent : Agent
  messages : List Message
deriving Repr, DecidableEq

/-- The assistant message dict appended to the history from a model
response (identical construction in all three implementations):
`{"role": "assistant", "content": message.content or "", "tool_calls": ...}`.
`None` content is normalised to the empty string. -/
def mk_assistant_message (content : Option String) (tcs : List ToolCall) : Message :=
  { role := "assistant", content := some (content.getD ""), tool_calls := tcs }

/-- The synthetic assistant message emitted on retry exhaustion. -/
def synthetic_message : Message :=
  { role := "assistant",
    content := some "I encountered an error and need to restart with the coordinator." }

/-- One scripted outcome of a `client.chat.completions.create` call:
either a hard failure (transport error, empty response, missing message)
or a successful assistant message with optional content and a list of
requested tool calls. -/
inductive ApiOutcome where
  | failure
  | success (content : Option String) (tool_calls : List ToolCall)
deriving Repr, DecidableEq

/-- Which return site of `run_full_turn` produced the result: the retry
exhaustion return (spec state FAILED), the `final_outcome` return (spec
state DONE), or the plain return to the caller after a content-only
response. -/
inductive ExitKind where
  | failed
  | done
  | toCaller
deriving Repr, DecidableEq

/-- How processing of one batch of tool calls ended: an agent transfer
that broke the loop (`team_chat.py` only), the `final_outcome` early
return, normal completion of the batch, or a propagating exception. -/
inductive BatchExit where
  | handoffBreak
  | finalReturn
  | completed
  | errored (e : ToolError)
deriving Repr, DecidableEq

end HubGpt

namespace RunTeam

open HubGpt

/-- One scratchpad entry of `run_team.ScratchpadManager.save_work`. -/
structure WorkEntry where
  key : String
  agent_name : String
  content : String
  handoff_message : String
  handoff_target : String
deriving Repr, DecidableEq

/-- The `ScratchpadManager.work` dict, in insertion order.  Lookup takes
the last entry with a matching key, so an insertion with a colliding key
shadows the old entry exactly as a Python dict assignment would. -/
abbrev Scratchpad := List WorkEntry

/-- `ScratchpadManager.save_work`.  `key` stands for the
`str(uuid.uuid4())` value generated inside the method; the uuid
generator's uniqueness contract becomes a freshness hypothesis where a
theorem needs it. -/
def save_work (sp : Scratchpad) (key content agent_name handoff_message handoff_target : String) :
    Scratchpad :=
  sp ++ [{ key := key, agent_name := agent_name, content := content,
           handoff_message := handoff_message, handoff_target := handoff_target }]

/-- `ScratchpadManager.get_work`: `none` when the key is absent. -/
def get_work (sp : Scratchpad) (key : String) : Option WorkEntry :=
  sp.reverse.find? (fun e => e.key == key)

/-- The backward walk of the `final_outcome` branch of
`run_team.execute_tool_call`, applied to the reversed message history:
the first message carrying a `work_done_key` that resolves in the
scratchpad yields that entry's `content`; a dangling key is skipped. -/
def find_report (sp : Scratchpad) : List Message → Option String
  | [] => none
  | m :: rest =>
    match m.work_done_key with
    | some key =>
      match get_work sp key with
      | some entry => some entry.content
      | none => find_report sp rest
    | none => find_report sp rest

/-- The report argument actually passed to the `final_outcome` function by
`run_team.execute_tool_call` (`cleaned_args = {'report': work_done}`):
the resolved content of the walk, unless it is missing or empty, in which
case the executor raises (`none`).  The model-supplied `report` argument
is never consulted. -/
def final_outcome_report (sp : Scratchpad) (msgs : List Message) : Option String :=
  match find_report sp msgs.reverse with
  | some w => if w == "" then none else some w
  | none => none

deriving instance DecidableEq for Except

/-- Result state of one `run_team.execute_tool_call` invocation.  Because
the Python function mutates `messages` and the scratchpad in place before
it can raise, the updated lists are returned even when `outcome` is an
error.  `keys` is the remaining uuid supply. -/
structure ExecResult where
  outcome : Except ToolError ToolResult
  messages : List Message
  scratchpad : Scratchpad
  keys : List String
deriving Repr, DecidableEq

/-- `run_team.execute_tool_call`.  `toolNames` is the key set of the
`tools` dict built from the acting agent's tool list (a `KeyError` on it
is `unknownTool`); `reg` is the global `agents` dict.  `AVAILABLE_TOOLS`
contains exactly `handoff_to_agent`, `handoff_to_coordinator`,
`escalate_to_human` and `final_outcome`, so those are the only names a
configured agent can carry. -/
def execute_tool_call (tc : ToolCall) (toolNames : List String) (agent_name : String)
    (msgs : List Message) (sp : Scratchpad) (keys : List String) (reg : AgentRegistry) :
    ExecResult :=
  if tc.name == "final_outcome" then
    match final_outcome_report sp msgs with
    | none => ⟨.error .noFinalReport, msgs, sp, keys⟩
    | some _ =>
      if toolNames.contains "final_outcome" then
        ⟨.ok (.data "Final report delivered to user."), msgs, sp, keys⟩
      else ⟨.error .unknownTool, msgs, sp, keys⟩
  else if tc.name == "handoff_to_coordinator" then
    if !truthy tc.args.work_done || !truthy tc.args.handoff then
      ⟨.error .invalidHandoff, msgs, sp, keys⟩
    else
      let key := keys.headD ""
      let sp2 := save_work sp key (tc.args.work_done.getD "") agent_name
        (tc.args.handoff.getD "") "coordinator"
      let newMsg : Message :=
        { role := "assistant", content := some "", work_done_key := some key,
          handoff := tc.args.handoff, agent_name := some agent_name }
      let msgs2 := msgs ++ [newMsg]
      if toolNames.contains "handoff_to_coordinator" then
        match lookup_agent reg "coordinator" with
        | some a => ⟨.ok (.transfer a), msgs2, sp2, keys.tail⟩
        | none => ⟨.error .unknownAgent, msgs2, sp2, keys.tail⟩
      else ⟨.error .unknownTool, msgs2, sp2, keys.tail⟩
  else if tc.name == "handoff_to_agent" then
    if !truthy tc.args.agent_name || !truthy tc.args.handoff then
      ⟨.error .invalidHandoff, msgs, sp, keys⟩
    else
      let newMsg : Message :=
        { role := "assistant", content := some "", handoff := tc.args.handoff,
          agent_name := some agent_name,
          work_done := if truthy tc.args.work_done then tc.args.work_done else none }
      let msgs2 := msgs ++ [newMsg]
      if toolNames.contains "handoff_to_agent" then
        match lookup_agent reg (tc.args.agent_name.getD "") with
        | some a => ⟨.ok (.transfer a), msgs2, sp, keys⟩
        | none => ⟨.error .unknownAgent, msgs2, sp, keys⟩
      else ⟨.error .unknownTool, msgs2, sp, keys⟩
  else if tc.name == "escalate_to_human" then
    if toolNames.contains "escalate_to_human" then
      match tc.args.summary with
      | some _ => ⟨.ok (.data "Escalated to human supervisor"), msgs, sp, keys⟩
      | none => ⟨.error .badArguments, msgs, sp, keys⟩
    else ⟨.error .unknownTool, msgs, sp, keys⟩
  else ⟨.error .unknownTool, msgs, sp, keys⟩

end RunTeam

namespace HubGpt

/-- Python `lst[-n:]`: the suffix of the `n` most recent entries (the whole
list when it has at most `n` entries). -/
def last_n (n : Nat) (msgs : List Message) : List Message :=
  msgs.drop (msgs.length - n)

end HubGpt

namespace RunTeam

open HubGpt

/-- Result of processing one batch of requested tool calls inside
`run_team.run_full_turn` (the `for tool_call in message.tool_calls` loop).
`transfers` counts how many times `current_agent` was reassigned and
`executed` how many tool calls were passed to `execute_tool_call`; both
are instrumentation for stating the batch policy, not program state. -/
structure BatchResult where
  agent : Agent
  messages : List Message
  scratchpad : Scratchpad
  keys : List String
  exit : BatchExit
  transfers : Nat
  executed : Nat
deriving Repr, DecidableEq

/-- The tool-call loop of `run_team.run_full_turn`.  The `tools` dict
(`toolNames`) is built once from the agent active at the start of the
batch and is not rebuilt after a transfer, while `agent_name` passed to
the executor is re-read from `current_agent` on every iteration.  An
agent transfer appends a transfer notice and processing continues with
the remaining tool calls (there is no `break`); a `final_outcome` call
returns immediately; an exception aborts the batch. -/
def process_batch (toolNames : List String) (reg : AgentRegistry) :
    Agent → List Message → Scratchpad → List String → List ToolCall → BatchResult
  | ag, msgs, sp, keys, [] => ⟨ag, msgs, sp, keys, .completed, 0, 0⟩
  | ag, msgs, sp, keys, tc :: rest =>
    let r := execute_tool_call tc toolNames ag.name msgs sp keys reg
    match r.outcome with
    | .error e => ⟨ag, r.messages, r.scratchpad, r.keys, .errored e, 0, 1⟩
    | .ok (.transfer a) =>
      let notice : Message :=
        { role := "assistant",
          content := some ("Transferred to " ++ a.name ++ ". Adopting new role.") }
      let msgs2 := r.messages ++ [notice]
      if tc.name == "final_outcome" then
        ⟨a, msgs2, r.scratchpad, r.keys, .finalReturn, 1, 1⟩
      else
        let b := process_batch toolNames reg a msgs2 r.scratchpad r.keys rest
        ⟨b.agent, b.messages, b.scratchpad, b.keys, b.exit, b.transfers + 1, b.executed + 1⟩
    | .ok (.data payload) =>
      let resultMsg : Message := { role := "assistant", content := some payload }
      let msgs2 := r.messages ++ [resultMsg]
      if tc.name == "final_outcome" then
        ⟨ag, msgs2, r.scratchpad, r.keys, .finalReturn, 0, 1⟩
      else
        let b := process_batch toolNames reg ag msgs2 r.scratchpad r.keys rest
        ⟨b.agent, b.messages, b.scratchpad, b.keys, b.exit, b.transfers, b.executed + 1⟩

/-- The per-message transformation of the coordinator branch of
`run_team.build_context_messages`: the context copy keeps only role and
content, and for system/user/assistant messages appends the resolved
scratchpad work (when non-blank and not produced by the coordinator) and
the handoff instructions carried by the message. -/
def context_transform (sp : Scratchpad) (m : Message) : Message :=
  let c0 := contentStr m
  let c2 :=
    if m.role == "system" || m.role == "user" || m.role == "assistant" then
      let c1 :=
        match m.work_done_key with
        | some key =>
          match get_work sp key with
          | some e =>
            if !(e.content.trim == "") && !(e.agent_name.toLower == "coordinator") then
              c0 ++ "\n\nPrevious work done by " ++ e.agent_name ++ ":\n" ++ e.content
            else c0
          | none => c0
        | none => c0
      match m.handoff with
      | some h => c1 ++ "\n\nHandoff Instructions:\n" ++ h
      | none => c1
    else c0
  { role := m.role, content := some c2 }

/-- The coordinator branch of `run_team.build_context_messages`: the
agent instructions as system message followed by the last `N = 15`
history entries, each passed through `context_transform`.  (The
specialist branch synthesises a two-message narrative context instead and
is not needed by any claim.) -/
def build_context_coordinator (agent : Agent) (sp : Scratchpad) (msgs : List Message) :
    List Message :=
  { role := "system", content := some agent.instructions } ::
    (last_n 15 msgs).map (context_transform sp)

/-- The `while True` loop of `run_team.run_full_turn`, driven by the
scripted completion-API outcomes (one consumed per iteration; `none` when
the script runs out or an `agents` lookup inside the error handler would
raise).  Returns the exit site, the `Response` value, the working message
list at return time and the final scratchpad.  `numInit` is
`num_init_messages`; `max_retries = 2`. -/
def run_full_turn_aux (reg : AgentRegistry) (numInit : Nat) :
    Agent → List Message → Scratchpad → List String → Nat → List ApiOutcome →
    Option (ExitKind × Response × List Message × Scratchpad)
  | _, _, _, _, _, [] => none
  | ag, msgs, sp, keys, retry, .failure :: rest =>
    if retry + 1 > 2 then
      match lookup_agent reg "coordinator" with
      | some c => some (.failed, ⟨c, [synthetic_message]⟩, msgs, sp)
      | none => none
    else run_full_turn_aux reg numInit ag msgs sp keys (retry + 1) rest
  | ag, msgs, sp, keys, retry, .success c tcs :: rest =>
    let msgs1 := msgs ++ [mk_assistant_message c tcs]
    if tcs.isEmpty then
      some (.toCaller, ⟨ag, msgs1.drop numInit⟩, msgs1, sp)
    else
      let b := process_batch ag.tools reg ag msgs1 sp keys tcs
      match b.exit with
      | .finalReturn => some (.done, ⟨b.agent, b.messages.drop numInit⟩, b.messages, b.scratchpad)
      | .completed => run_full_turn_aux reg numInit b.agent b.messages b.scratchpad b.keys retry rest
      | .handoffBreak => none
      | .errored _ =>
        if retry + 1 > 2 then
          match lookup_agent reg "coordinator" with
          | some c => some (.failed, ⟨c, [synthetic_message]⟩, b.messages, b.scratchpad)
          | none => none
        else run_full_turn_aux reg numInit b.agent b.messages b.scratchpad b.keys (retry + 1) rest

/-- `run_team.run_full_turn`: works on a copy of the caller's list (value
semantics of the embedding) and takes `num_init_messages` as the length of
the caller-supplied history. -/
def run_full_turn (reg : AgentRegistry) (ag : Agent) (input : List Message)
    (sp : Scratchpad) (keys : List String) (oracle : List ApiOutcome) :
    Option (ExitKind × Response × List Message × Scratchpad) :=
  run_full_turn_aux reg input.length ag input sp keys 0 oracle

end RunTeam

namespace TeamChat

open HubGpt

/-- One row of the `steps` table written by `AgentRunsDB.add_step` (the
fields the turn loop reads; `run_id` and `timestamp` are dropped because
the model tracks the steps of a single run in insertion order, which is
what `get_steps_for_run` returns). -/
structure Step where
  id : String
  output : String
  handoff_msg : String
  actor_agent : String
  target_agent : String
  summary : String
  tool_call_id : String
deriving Repr, DecidableEq

/-- The steps of one run, in insertion order. -/
abbrev StepsDB := List Step

/-- `AgentRunsDB.add_step` for the current run.  `stepId` stands for the
`shortuuid.uuid()[:8]` value generated inside the method. -/
def add_step (db : StepsDB) (stepId output handoff_msg actor_agent target_agent summary
    tool_call_id : String) : StepsDB :=
  db ++ [{ id := stepId, output := output, handoff_msg := handoff_msg,
           actor_agent := actor_agent, target_agent := target_agent,
           summary := summary, tool_call_id := tool_call_id }]

/-- The backward walk of the `final_outcome` branch of
`team_chat.execute_tool_call`, applied to the reversed message history:
for each message carrying a `tool_call_id`, the most recent step with that
`tool_call_id` is looked up; the walk stops at the first message whose
matching step has truthy (non-empty) `output` and yields that output. -/
def find_report (db : StepsDB) : List Message → Option String
  | [] => none
  | m :: rest =>
    match m.tool_call_id with
    | some cid =>
      match db.reverse.find? (fun s => s.tool_call_id == cid) with
      | some s => if s.output == "" then find_report db rest else some s.output
      | none => find_report db rest
    | none => find_report db rest

/-- The report argument actually passed to the `final_outcome` function by
`team_chat.execute_tool_call` (`cleaned_args = {'report': work_done}`);
`none` when the executor raises instead.  The model-supplied `report`
argument is never consulted. -/
def final_outcome_report (db : StepsDB) (msgs : List Message) : Option String :=
  find_report db msgs.reverse

/-- Result state of one `team_chat.execute_tool_call` invocation; as in
`run_team`, message-list and database mutations performed before an
exception persist, so they are returned alongside the outcome.  `ids` is
the remaining shortuuid supply for step ids. -/
structure ExecResult where
  outcome : Except ToolError ToolResult
  messages : List Message
  db : StepsDB
  ids : List String
deriving Repr, DecidableEq

/-- `team_chat.execute_tool_call`.  `registeredTools` is the key set of
the global `TOOL_REGISTRY` loaded from the `tools/` directory (checked
first, before any branch); `reg` is the global `agents` dict;
`genericTool` is an oracle for the externally-implemented ordinary tools
(web search, scraping, ...) dispatched by the final branch.  The
`handoff_to_agent` and `handoff_to_coordinator` implementations in
`tools/` are side-effect-free, so calling them changes no state. -/
def execute_tool_call (tc : ToolCall) (registeredTools : List String) (agent_name : String)
    (msgs : List Message) (db : StepsDB) (ids : List String) (reg : AgentRegistry)
    (genericTool : String → ToolArgs → String) : ExecResult :=
  if !(registeredTools.contains tc.name) then
    ⟨.error .unknownTool, msgs, db, ids⟩
  else if tc.name == "handoff_to_coordinator" then
    if !truthy tc.args.work_done || !truthy tc.args.handoff then
      ⟨.error .invalidHandoff, msgs, db, ids⟩
    else
      let db2 := add_step db (ids.headD "") (tc.args.work_done.getD "")
        (tc.args.handoff.getD "") agent_name "coordinator" "Handoff to coordinator" tc.id
      let newMsg : Message :=
        { role := "assistant", content := some "", tool_call_id := some tc.id,
          handoff := tc.args.handoff, agent_name := some agent_name }
      let msgs2 := msgs ++ [newMsg]
      match lookup_agent reg "coordinator" with
      | some a => ⟨.ok (.transfer a), msgs2, db2, ids.tail⟩
      | none => ⟨.error .unknownAgent, msgs2, db2, ids.tail⟩
  else if tc.name == "handoff_to_agent" then
    if !truthy tc.args.agent_name || !truthy tc.args.handoff then
      ⟨.error .invalidHandoff, msgs, db, ids⟩
    else
      let coordinator_work :=
        match msgs.reverse.find? (fun m => m.role == "assistant" && truthy m.content) with
        | some m => contentStr m
        | none => ""
      let target := tc.args.agent_name.getD ""
      let db2 := add_step db (ids.headD "") coordinator_work (tc.args.handoff.getD "")
        agent_name target ("Handoff to " ++ target) tc.id
      let newMsg : Message :=
        { role := "assistant", content := some "", handoff := tc.args.handoff,
          agent_name := some agent_name, tool_call_id := some tc.id }
      let msgs2 := msgs ++ [newMsg]
      match lookup_agent reg target with
      | some a => ⟨.ok (.transfer a), msgs2, db2, ids.tail⟩
      | none => ⟨.error .unknownAgent, msgs2, db2, ids.tail⟩
  else if tc.name == "final_outcome" then
    match final_outcome_report db msgs with
    | none => ⟨.error .noFinalReport, msgs, db, ids⟩
    | some _ => ⟨.ok (.data "Final report delivered to user."), msgs, db, ids⟩
  else ⟨.ok (.data (genericTool tc.name tc.args)), msgs, db, ids⟩

/-- Result of processing one batch of tool calls inside
`team_chat.run_full_turn`; `transfers` and `executed` are instrumentation
as in the `run_team` model. -/
structure BatchResult where
  agent : Agent
  messages : List Message
  db : StepsDB
  ids : List String
  exit : BatchExit
  transfers : Nat
  executed : Nat
deriving Repr, DecidableEq

/-- The tool-call loop of `team_chat.run_full_turn`: an agent transfer
reassigns `current_agent` and immediately `break`s out of the batch (the
remaining tool calls are dropped and no notice message is appended); a
data result is appended as an assistant message; `final_outcome` returns
immediately; the `for`-`else` completion also returns. -/
def process_batch (registeredTools : List String) (reg : AgentRegistry)
    (genericTool : String → ToolArgs → String) :
    Agent → List Message → StepsDB → List String → List ToolCall → BatchResult
  | ag, msgs, db, ids, [] => ⟨ag, msgs, db, ids, .completed, 0, 0⟩
  | ag, msgs, db, ids, tc :: rest =>
    let r := execute_tool_call tc registeredTools ag.name msgs db ids reg genericTool
    match r.outcome with
    | .error e => ⟨ag, r.messages, r.db, r.ids, .errored e, 0, 1⟩
    | .ok (.transfer a) => ⟨a, r.messages, r.db, r.ids, .handoffBreak, 1, 1⟩
    | .ok (.data payload) =>
      let resultMsg : Message := { role := "assistant", content := some payload }
      let msgs2 := r.messages ++ [resultMsg]
      if tc.name == "final_outcome" then
        ⟨ag, msgs2, r.db, r.ids, .finalReturn, 0, 1⟩
      else
        let b := process_batch registeredTools reg genericTool ag msgs2 r.db r.ids rest
        ⟨b.agent, b.messages, b.db, b.ids, b.exit, b.transfers, b.executed + 1⟩

end TeamChat

namespace AutoAgent

open HubGpt

/-- The agent-transfer tool-name pattern of `auto_agent.execute_tool_call`:
`name.startswith('get_') and name.endswith('_agent')`, stated on the
character list (the first four characters are `get_` and the last six are
`_agent`) so that concrete instances evaluate in the kernel. -/
def isTransferTool (name : String) : Bool :=
  (name.data.take 4 == "get_".data) && (name.data.reverse.take 6 == "_agent".data.reverse)

/-- The messages considered by the `work_done` backfill:
`[m for m in messages if m['role'] in ('assistant', 'user')]`. -/
def content_messages (msgs : List Message) : List Message :=
  msgs.filter (fun m => m.role == "assistant" || m.role == "user")

/-- The space-joined content of the last up-to-3 assistant/user messages:
`' '.join([m.get('content', '') for m in content_messages[-3:]])`. -/
def joined_recent_content (msgs : List Message) : String :=
  String.intercalate " " ((last_n 3 (content_messages msgs)).map contentStr)

/-- The argument rewrite at the top of `auto_agent.execute_tool_call`: for
a tool whose name matches the transfer pattern and whose `work_done`
argument is missing or empty, `work_done` is silently replaced by the
joined recent content, provided at least one assistant/user message
exists; all other calls keep their arguments untouched. -/
def rewrite_args (name : String) (msgs : List Message) (args : ToolArgs) : ToolArgs :=
  if isTransferTool name && !truthy args.work_done then
    if (content_messages msgs).isEmpty then args
    else { args with work_done := some (joined_recent_content msgs) }
  else args

/-- The four fixed agents defined at module level in `auto_agent.py`.
Their tool lists and names are fixed in the source; the (long, free-text)
instruction strings are payload the loop never branches on, so they are
parameters of the model. -/
structure AutoTeam where
  coordinator_instructions : String
  researcher_instructions : String
  analyst_instructions : String
  writer_instructions : String
deriving Repr, DecidableEq

/-- `coordinator_agent`: tools as listed in the source. -/
def AutoTeam.coordinator (t : AutoTeam) : Agent :=
  { name := "Coordinator", instructions := t.coordinator_instructions,
    tools := ["get_researcher_agent", "get_analyst_agent", "get_writer_agent",
              "escalate_to_human", "final_outcome"] }

/-- `researcher_agent`. -/
def AutoTeam.researcher (t : AutoTeam) : Agent :=
  { name := "Researcher", instructions := t.researcher_instructions,
    tools := ["get_coordinator_agent"] }

/-- `analyst_agent`. -/
def AutoTeam.analyst (t : AutoTeam) : Agent :=
  { name := "Analyst", instructions := t.analyst_instructions,
    tools := ["get_coordinator_agent"] }

/-- `writer_agent`. -/
def AutoTeam.writer (t : AutoTeam) : Agent :=
  { name := "Writer", instructions := t.writer_instructions,
    tools := ["get_coordinator_agent"] }

/-- `auto_agent.execute_tool_call` after the argument rewrite: dispatch on
the tool name through the `tools` dict of the agent that opened the batch
(`unknownTool` for a `KeyError`), with a `TypeError` (`badArguments`) when
`**args` carries a key the callable does not accept or misses a required
one.  The transfer tools return the module-level agent objects; the
executor itself never mutates the message history. -/
def execute_tool_call (t : AutoTeam) (tc : ToolCall) (toolNames : List String)
    (msgs : List Message) : Except ToolError ToolResult :=
  let args := rewrite_args tc.name msgs tc.args
  if !(toolNames.contains tc.name) then .error .unknownTool
  else if tc.name == "get_researcher_agent" then
    if args.agent_name.isSome || args.report.isSome || args.summary.isSome then
      .error .badArguments
    else .ok (.transfer t.researcher)
  else if tc.name == "get_analyst_agent" then
    if args.agent_name.isSome || args.report.isSome || args.summary.isSome then
      .error .badArguments
    else .ok (.transfer t.analyst)
  else if tc.name == "get_writer_agent" then
    if args.agent_name.isSome || args.report.isSome || args.summary.isSome then
      .error .badArguments
    else .ok (.transfer t.writer)
  else if tc.name == "get_coordinator_agent" then
    if args.agent_name.isSome || args.report.isSome || args.summary.isSome then
      .error .badArguments
    else .ok (.transfer t.coordinator)
  else if tc.name == "escalate_to_human" then
    if args.work_done.isSome || args.handoff.isSome || args.agent_name.isSome ||
        args.report.isSome then
      .error .badArguments
    else match args.summary with
      | some _ => .ok (.data "Escalated to human supervisor")
      | none => .error .badArguments
  else if tc.name == "final_outcome" then
    if args.work_done.isSome || args.handoff.isSome || args.agent_name.isSome ||
        args.summary.isSome then
      .error .badArguments
    else match args.report with
      | some _ => .ok (.data "Final report delivered to user.")
      | none => .error .badArguments
  else .error .unknownTool

/-- The tool-call loop of `auto_agent.run_full_turn`: every tool call in
the batch is executed in order (no `break` and no early return); a
transfer reassigns `current_agent` and records a notice as the tool-role
result message; each result is appended as a tool-role message carrying
the call id.  The third component is the exception that aborted the
batch, if any. -/
def process_batch (t : AutoTeam) (toolNames : List String) :
    Agent → List Message → List ToolCall → Agent × List Message × Option ToolError
  | ag, msgs, [] => (ag, msgs, none)
  | ag, msgs, tc :: rest =>
    match execute_tool_call t tc toolNames msgs with
    | .error e => (ag, msgs, some e)
    | .ok (.transfer a) =>
      let toolMsg : Message :=
        { role := "tool", tool_call_id := some tc.id,
          content := some ("Transferred to " ++ a.name ++ ". Adopting new role.") }
      process_batch t toolNames a (msgs ++ [toolMsg]) rest
    | .ok (.data payload) =>
      let toolMsg : Message :=
        { role := "tool", tool_call_id := some tc.id, content := some payload }
      process_batch t toolNames ag (msgs ++ [toolMsg]) rest

/-- The history truncation applied to the working copy at the start of
`auto_agent.run_full_turn`:
`if len(messages) > 10: messages = messages[-10:]`. -/
def truncate_history (msgs : List Message) : List Message :=
  if msgs.length > 10 then last_n 10 msgs else msgs

/-- The `while True` loop of `auto_agent.run_full_turn`.  Unlike
`run_team`, there is no `final_outcome` early return: the loop exits only
when a response carries no tool calls (`break`) or on retry exhaustion.
Returns the exit site, the `Response`, and the working message list at
return time. -/
def run_full_turn_aux (t : AutoTeam) (numInit : Nat) :
    Agent → List Message → Nat → List ApiOutcome →
    Option (ExitKind × Response × List Message)
  | _, _, _, [] => none
  | ag, msgs, retry, .failure :: rest =>
    if retry + 1 > 2 then some (.failed, ⟨t.coordinator, [synthetic_message]⟩, msgs)
    else run_full_turn_aux t numInit ag msgs (retry + 1) rest
  | ag, msgs, retry, .success c tcs :: rest =>
    let msgs1 := msgs ++ [mk_assistant_message c tcs]
    if tcs.isEmpty then
      some (.toCaller, ⟨ag, msgs1.drop numInit⟩, msgs1)
    else
      match process_batch t ag.tools ag msgs1 tcs with
      | (ag2, msgs2, none) => run_full_turn_aux t numInit ag2 msgs2 retry rest
      | (ag2, msgs2, some _) =>
        if retry + 1 > 2 then some (.failed, ⟨t.coordinator, [synthetic_message]⟩, msgs2)
        else run_full_turn_aux t numInit ag2 msgs2 (retry + 1) rest

/-- `auto_agent.run_full_turn`: `num_init_messages` is taken as the length
of the caller-supplied list BEFORE the working copy is truncated to its
last 10 entries; every return slices `messages[num_init_messages:]` out of
the truncated-and-extended working copy. -/
def run_full_turn (t : AutoTeam) (ag : Agent) (input : List Message)
    (oracle : List ApiOutcome) : Option (ExitKind × Response × List Message) :=
  run_full_turn_aux t input.length ag (truncate_history input) 0 oracle

end AutoAgent

open HubGpt

/-- Python `lst[-n:]` keeps a suffix of the list, of length `n` when the
list is at least that long. -/
theorem last_n_suffix_spec (n : Nat) (l : List Message) :
    l = l.take (l.length - n) ++ last_n n l ∧ (last_n n l).length = min n l.length := by
  constructor
  · exact (List.take_append_drop (l.length - n) l).symm
  · simp only [last_n, List.length_drop]
    omega

/-- C9: in `auto_agent.execute_tool_call`, a tool call whose name matches
the transfer pattern (starts with `get_`, ends with `_agent`) and whose
`work_done` argument is missing or empty has `work_done` silently replaced
by the space-joined content of the last up-to-3 user/assistant messages of
the history (when any exist); any other tool call keeps its arguments
untouched. -/
theorem c9_auto_agent_work_done_backfill (name : String) (msgs : List Message)
    (args : ToolArgs) :
    (AutoAgent.isTransferTool name = false → AutoAgent.rewrite_args name msgs args = args)
  ∧ (truthy args.work_done = true → AutoAgent.rewrite_args name msgs args = args)
  ∧ (AutoAgent.isTransferTool name = true → truthy args.work_done = false →
      msgs.filter (fun m => m.role == "assistant" || m.role == "user") ≠ [] →
      AutoAgent.rewrite_args name msgs args
        = { args with work_done := some (String.intercalate " "
            ((last_n 3 (msgs.filter (fun m => m.role == "assistant" || m.role == "user"))).map
              contentStr)) }) := by
  refine ⟨fun h => ?_, fun h => ?_, fun h1 h2 h3 => ?_⟩
  · simp [AutoAgent.rewrite_args, h]
  · simp [AutoAgent.rewrite_args, h]
  · have hne : (AutoAgent.content_messages msgs).isEmpty = false := by
      unfold AutoAgent.content_messages
      cases hfm : msgs.filter (fun m => m.role == "assistant" || m.role == "user") with
      | nil => exact absurd hfm h3
      | cons a l => rfl
    unfold AutoAgent.rewrite_args
    rw [h1, h2, hne]
    rfl

/-- Concrete instance for the backfill rewrite: a transfer tool invoked
with no `work_done` on a four-message history. -/
theorem c9_auto_agent_work_done_backfill_witness :
    AutoAgent.isTransferTool "get_writer_agent" = true
  ∧ truthy (ToolArgs.work_done { handoff := some "go" }) = false
  ∧ ([{ role := "user", content := some "hello" },
      { role := "assistant", content := some "there" },
      { role := "user", content := some "m3" },
      { role := "user", content := some "m4" }] : List Message).filter
        (fun m => m.role == "assistant" || m.role == "user") ≠ []
  ∧ AutoAgent.rewrite_args "get_writer_agent"
      [{ role := "user", content := some "hello" },
       { role := "assistant", content := some "there" },
       { role := "user", content := some "m3" },
       { role := "user", content := some "m4" }]
      { handoff := some "go" }
      = { handoff := some "go", work_done := some "there m3 m4" } := by
  refine ⟨by decide, by decide, by decide, ?_⟩
  have h := (c9_auto_agent_work_done_backfill "get_writer_agent"
    [{ role := "user", content := some "hello" },
     { role := "assistant", content := some "there" },
     { role := "user", content := some "m3" },
     { role := "user", content := some "m4" }]
    { handoff := some "go" }).2.2 (by decide) (by decide) (by decide)
  exact h.trans (by decide)

/-- C7: a handoff tool invocation missing a required field (or supplying
it empty) makes the executor raise the invalid-handoff exception instead
of performing the handoff: the result is the error, the message history,
ledger and key supply are untouched, and no agent transfer happens.
Stated for both `run_team.execute_tool_call` and
`team_chat.execute_tool_call` (the latter reaches its validation only for
registered tools). -/
theorem c7_invalid_handoff_rejected (tc : ToolCall) (toolNames registeredTools : List String)
    (agent_name : String) (msgs : List Message) (sp : RunTeam.Scratchpad)
    (db : TeamChat.StepsDB) (keys ids : List String) (reg : AgentRegistry)
    (g : String → ToolArgs → String) :
    (tc.name = "handoff_to_coordinator" →
      truthy tc.args.work_done = false ∨ truthy tc.args.handoff = false →
      RunTeam.execute_tool_call tc toolNames agent_name msgs sp keys reg
        = ⟨.error .invalidHandoff, msgs, sp, keys⟩)
  ∧ (tc.name = "handoff_to_agent" →
      truthy tc.args.agent_name = false ∨ truthy tc.args.handoff = false →
      RunTeam.execute_tool_call tc toolNames agent_name msgs sp keys reg
        = ⟨.error .invalidHandoff, msgs, sp, keys⟩)
  ∧ (tc.name = "handoff_to_coordinator" → registeredTools.contains tc.name = true →
      truthy tc.args.work_done = false ∨ truthy tc.args.handoff = false →
      TeamChat.execute_tool_call tc registeredTools agent_name msgs db ids reg g
        = ⟨.error .invalidHandoff, msgs, db, ids⟩)
  ∧ (tc.name = "handoff_to_agent" → registeredTools.contains tc.name = true →
      truthy tc.args.agent_name = false ∨ truthy tc.args.handoff = false →
      TeamChat.execute_tool_call tc registeredTools agent_name msgs db ids reg g
        = ⟨.error .invalidHandoff, msgs, db, ids⟩) := by
  refine ⟨fun hn hv => ?_, fun hn hv => ?_, fun hn hr hv => ?_, fun hn hr hv => ?_⟩
  · rcases hv with hv | hv <;> simp [RunTeam.execute_tool_call, hn, hv]
  · rcases hv with hv | hv <;> simp [RunTeam.execute_tool_call, hn, hv]
  · rw [hn] at hr
    have hr2 : "handoff_to_coordinator" ∈ registeredTools := List.mem_of_elem_eq_true hr
    rcases hv with hv | hv <;> simp [TeamChat.execute_tool_call, hn, hr2, hv]
  · rw [hn] at hr
    have hr2 : "handoff_to_agent" ∈ registeredTools := List.mem_of_elem_eq_true hr
    rcases hv with hv | hv <;> simp [TeamChat.execute_tool_call, hn, hr2, hv]

/-- Concrete instance for invalid-handoff rejection: a
`handoff_to_coordinator` call with an empty `work_done`. -/
theorem c7_invalid_handoff_rejected_witness :
    truthy (ToolArgs.work_done { work_done := some "", handoff := some "done" }) = false
  ∧ RunTeam.execute_tool_call
      ⟨"t1", "handoff_to_coordinator", { work_done := some "", handoff := some "done" }⟩
      ["handoff_to_coordinator"] "Researcher" [] [] ["k1"] []
      = ⟨.error .invalidHandoff, [], [], ["k1"]⟩ := by
  refine ⟨by decide, ?_⟩
  exact (c7_invalid_handoff_rejected
    ⟨"t1", "handoff_to_coordinator", { work_done := some "", handoff := some "done" }⟩
    ["handoff_to_coordinator"] [] "Researcher" [] [] [] ["k1"] [] []
    (fun _ _ => "")).1 rfl (Or.inl (by decide))

namespace RunTeam

/-- A sequence of later `save_work` calls (each entry carrying the key its
call drew from the uuid generator), applied in order. -/
def apply_saves : Scratchpad → List WorkEntry → Scratchpad
  | sp, [] => sp
  | sp, e :: rest =>
    apply_saves (save_work sp e.key e.content e.agent_name e.handoff_message e.handoff_target) rest

/-- Reading back the key just written returns exactly the record fields
passed to `save_work`. -/
theorem get_work_save_self (sp : Scratchpad) (key c a h t : String) :
    get_work (save_work sp key c a h t) key
      = some ⟨key, a, c, h, t⟩ := by
  simp [get_work, save_work, List.find?]

/-- A `save_work` under a different key leaves every other lookup
unchanged. -/
theorem get_work_save_other (sp : Scratchpad) (k2 c a h t key : String) (hne : k2 ≠ key) :
    get_work (save_work sp k2 c a h t) key = get_work sp key := by
  simp [get_work, save_work, List.find?, hne]

/-- Later saves under fresh keys never change an existing lookup. -/
theorem apply_saves_get_stable (key : String) :
    ∀ (later : List WorkEntry) (sp1 : Scratchpad), (∀ e ∈ later, e.key ≠ key) →
      get_work (apply_saves sp1 later) key = get_work sp1 key
  | [], _, _ => rfl
  | e :: rest, sp1, hfresh => by
    rw [apply_saves, apply_saves_get_stable key rest _
      (fun x hx => hfresh x (List.mem_cons_of_mem e hx))]
    exact get_work_save_other sp1 e.key e.content e.agent_name e.handoff_message
      e.handoff_target key (hfresh e (List.mem_cons_self e rest))

end RunTeam

/-- C8: the ledger is append-only and immutable.  Once `save_work` has
recorded a work product under a (uuid-generated) key, every later
`get_work` with that key returns a record with exactly the creation-time
field values, as long as the uuid generator honours its uniqueness
contract (the freshness hypothesis on the later keys); a record operation
never alters the record stored under any other key; and
`AgentRunsDB.add_step` only ever appends a new row, leaving all existing
rows in place. -/
theorem c8_ledger_record_immutable (sp : RunTeam.Scratchpad)
    (key c a h t : String) (later : List RunTeam.WorkEntry)
    (hfresh : ∀ e ∈ later, e.key ≠ key) :
    RunTeam.get_work (RunTeam.apply_saves (RunTeam.save_work sp key c a h t) later) key
      = some ⟨key, a, c, h, t⟩
  ∧ (∀ k2, k2 ≠ key →
      RunTeam.get_work (RunTeam.save_work sp key c a h t) k2 = RunTeam.get_work sp k2)
  ∧ (∀ (db : TeamChat.StepsDB) (sid o hm aa ta su cid : String),
      TeamChat.add_step db sid o hm aa ta su cid = db ++ [⟨sid, o, hm, aa, ta, su, cid⟩]) := by
  refine ⟨?_, ?_, ?_⟩
  · rw [RunTeam.apply_saves_get_stable key later _ hfresh]
    exact RunTeam.get_work_save_self sp key c a h t
  · intro k2 hk2
    exact RunTeam.get_work_save_other sp key c a h t k2 (Ne.symm hk2)
  · intro db sid o hm aa ta su cid
    rfl

/-- Concrete instance for ledger immutability: a record written under key
`k1` survives two later saves unchanged. -/
theorem c8_ledger_record_immutable_witness :
    (∀ e ∈ ([⟨"k2", "Analyst", "w2", "h2", "coordinator"⟩,
             ⟨"k3", "Writer", "w3", "h3", "coordinator"⟩] : List RunTeam.WorkEntry),
       e.key ≠ "k1")
  ∧ RunTeam.get_work
      (RunTeam.apply_saves (RunTeam.save_work [] "k1" "the work" "Researcher" "note" "coordinator")
        [⟨"k2", "Analyst", "w2", "h2", "coordinator"⟩,
         ⟨"k3", "Writer", "w3", "h3", "coordinator"⟩]) "k1"
      = some ⟨"k1", "Researcher", "the work", "note", "coordinator"⟩ := by
  refine ⟨by decide, ?_⟩
  exact (c8_ledger_record_immutable [] "k1" "the work" "Researcher" "note" "coordinator"
    [⟨"k2", "Analyst", "w2", "h2", "coordinator"⟩,
     ⟨"k3", "Writer", "w3", "h3", "coordinator"⟩] (by decide)).1

/-- C5 (amended): both truncation sites keep the most recent N entries
with relative order preserved — `auto_agent.run_full_turn` slices the
working copy to its last 10 entries, and the coordinator branch of
`run_team.build_context_messages` sends the system message followed by
the transformed last 15 history entries — but each truncation is a plain
suffix slice with no pairing logic. -/
theorem c5_truncation_keeps_recent_suffix (msgs : List Message) (agent : Agent)
    (sp : RunTeam.Scratchpad) :
    (msgs.length > 10 →
        msgs = msgs.take (msgs.length - 10) ++ AutoAgent.truncate_history msgs
      ∧ (AutoAgent.truncate_history msgs).length = 10)
  ∧ (¬ msgs.length > 10 → AutoAgent.truncate_history msgs = msgs)
  ∧ msgs = msgs.take (msgs.length - 15) ++ last_n 15 msgs
  ∧ (15 ≤ msgs.length → (last_n 15 msgs).length = 15)
  ∧ RunTeam.build_context_coordinator agent sp msgs
      = { role := "system", content := some agent.instructions } ::
          (last_n 15 msgs).map (RunTeam.context_transform sp) := by
  refine ⟨fun h => ?_, fun h => ?_, ?_, fun h => ?_, rfl⟩
  · have hs := last_n_suffix_spec 10 msgs
    rw [AutoAgent.truncate_history, if_pos h]
    exact ⟨hs.1, by rw [hs.2]; omega⟩
  · rw [AutoAgent.truncate_history, if_neg h]
  · exact (last_n_suffix_spec 15 msgs).1
  · rw [(last_n_suffix_spec 15 msgs).2]; omega

/-- Concrete instance for the suffix-truncation behaviour on a 16-message
history. -/
theorem c5_truncation_keeps_recent_suffix_witness :
    (List.replicate 16 ({ role := "user", content := some "q" } : Message)).length > 10
  ∧ (AutoAgent.truncate_history
      (List.replicate 16 ({ role := "user", content := some "q" } : Message))).length = 10
  ∧ (last_n 15 (List.replicate 16 ({ role := "user", content := some "q" } : Message))).length
      = 15 := by
  have h := c5_truncation_keeps_recent_suffix
    (List.replicate 16 ({ role := "user", content := some "q" } : Message))
    ⟨"Coordinator", "", [], "openai/gpt-4o-mini"⟩ []
  exact ⟨by decide, (h.1 (by decide)).2, h.2.2.2.1 (by decide)⟩

/-- The assistant message that requests tool call `c1` in the C5
counterexample history. -/
def c5_call_message : Message :=
  { role := "assistant", content := some "",
    tool_calls := [⟨"c1", "get_current_weather", {}⟩] }

/-- The tool-result message answering call `c1` in the C5 counterexample
history. -/
def c5_result_message : Message :=
  { role := "tool", tool_call_id := some "c1", content := some "sunny" }

/-- An 11-message history whose oldest entry is a tool-call message and
whose second entry is its tool result. -/
def c5_history : List Message :=
  c5_call_message :: c5_result_message ::
    List.replicate 9 { role := "user", content := some "more" }

/-- C5 counterexample: truncating an 11-message history in
`auto_agent.run_full_turn` keeps the tool-result message for call `c1`
while dropping the assistant message that issued call `c1`, so the
truncation does separate a tool-call message from its tool-result
message. -/
theorem c5_truncation_separates_pair_cex :
    c5_history.length = 11
  ∧ AutoAgent.truncate_history c5_history
      = c5_result_message :: List.replicate 9 { role := "user", content := some "more" }
  ∧ c5_call_message ∈ c5_history
  ∧ (∃ tc ∈ c5_call_message.tool_calls, tc.id = "c1")
  ∧ c5_result_message.tool_call_id = some "c1"
  ∧ c5_result_message ∈ AutoAgent.truncate_history c5_history
  ∧ c5_call_message ∉ AutoAgent.truncate_history c5_history
  ∧ (∀ m ∈ AutoAgent.truncate_history c5_history, ∀ tc ∈ m.tool_calls, tc.id ≠ "c1") := by
  refine ⟨rfl, by decide, by decide, by decide, rfl, by decide, by decide, by decide⟩

/-- C4 (amended): in `run_team.execute_tool_call` a `handoff_to_agent`
call never touches the scratchpad ledger and, when valid, carries any
supplied work product inline in the appended message; in
`team_chat.execute_tool_call` the same tool instead writes one ledger
step (linked to the call id) and appends a message without inline work. -/
theorem c4_handoff_to_agent_ledger (tc : ToolCall) (toolNames : List String)
    (agent_name : String) (msgs : List Message) (sp : RunTeam.Scratchpad)
    (keys : List String) (reg : AgentRegistry) (registeredTools : List String)
    (db : TeamChat.StepsDB) (ids : List String) (g : String → ToolArgs → String)
    (hname : tc.name = "handoff_to_agent") :
    (RunTeam.execute_tool_call tc toolNames agent_name msgs sp keys reg).scratchpad = sp
  ∧ (truthy tc.args.agent_name = true → truthy tc.args.handoff = true →
      (RunTeam.execute_tool_call tc toolNames agent_name msgs sp keys reg).messages
        = msgs ++ [{ role := "assistant", content := some "", handoff := tc.args.handoff,
                     agent_name := some agent_name,
                     work_done := if truthy tc.args.work_done then tc.args.work_done
                                  else none }])
  ∧ (registeredTools.contains tc.name = true →
      truthy tc.args.agent_name = true → truthy tc.args.handoff = true →
      (∃ s : TeamChat.Step,
        (TeamChat.execute_tool_call tc registeredTools agent_name msgs db ids reg g).db
          = db ++ [s] ∧ s.tool_call_id = tc.id)
      ∧ (TeamChat.execute_tool_call tc registeredTools agent_name msgs db ids reg g).messages
          = msgs ++ [{ role := "assistant", content := some "", handoff := tc.args.handoff,
                       agent_name := some agent_name, tool_call_id := some tc.id }]) := by
  obtain ⟨i, nm, args⟩ := tc
  simp only [ToolCall.name] at hname
  subst hname
  refine ⟨?_, fun hv1 hv2 => ?_, fun hr hv1 hv2 => ?_⟩
  · by_cases h1 : (!truthy args.agent_name || !truthy args.handoff) = true
    · simp [RunTeam.execute_tool_call, h1]
    · rw [Bool.not_eq_true] at h1
      cases hlk : lookup_agent reg (args.agent_name.getD "") <;>
        simp [RunTeam.execute_tool_call, h1, hlk] <;> split <;> rfl
  · have h1 : (!truthy args.agent_name || !truthy args.handoff) = false := by
      simp [hv1, hv2]
    cases hlk : lookup_agent reg (args.agent_name.getD "") <;>
      simp [RunTeam.execute_tool_call, h1, hlk] <;> split <;> rfl
  · have hr2 : "handoff_to_agent" ∈ registeredTools := List.mem_of_elem_eq_true hr
    have h1 : (!truthy args.agent_name || !truthy args.handoff) = false := by
      simp [hv1, hv2]
    refine ⟨⟨{ id := ids.headD "",
               output := match msgs.reverse.find?
                   (fun m => m.role == "assistant" && truthy m.content) with
                 | some m => contentStr m
                 | none => "",
               handoff_msg := args.handoff.getD "", actor_agent := agent_name,
               target_agent := args.agent_name.getD "",
               summary := "Handoff to " ++ args.agent_name.getD "", tool_call_id := i },
             ?_, rfl⟩, ?_⟩ <;>
      cases hlk : lookup_agent reg (args.agent_name.getD "") <;>
        simp [TeamChat.execute_tool_call, hr2, h1, hlk, TeamChat.add_step]

/-- The researcher agent used by the C4 counterexample registry. -/
def c4_researcher : Agent :=
  { name := "researcher", instructions := "", tools := ["handoff_to_coordinator"] }

/-- C4 counterexample: in `team_chat.execute_tool_call`, a valid
`handoff_to_agent` invocation does write a ledger record — `db.add_step`
stores the last non-empty assistant content as `output` under the call id
— and the appended message carries no inline work product even though the
model supplied `work_done`. -/
theorem c4_team_chat_handoff_writes_ledger_cex :
    (TeamChat.execute_tool_call
        ⟨"t1", "handoff_to_agent",
          { agent_name := some "researcher", handoff := some "brief",
            work_done := some "draft" }⟩
        ["handoff_to_agent"] "Coordinator"
        [{ role := "user", content := some "q" },
         { role := "assistant", content := some "plan" }]
        [] ["s1"] [("researcher", c4_researcher)] (fun _ _ => "")).db
      = [⟨"s1", "plan", "brief", "Coordinator", "researcher", "Handoff to researcher", "t1"⟩]
  ∧ (TeamChat.execute_tool_call
        ⟨"t1", "handoff_to_agent",
          { agent_name := some "researcher", handoff := some "brief",
            work_done := some "draft" }⟩
        ["handoff_to_agent"] "Coordinator"
        [{ role := "user", content := some "q" },
         { role := "assistant", content := some "plan" }]
        [] ["s1"] [("researcher", c4_researcher)] (fun _ _ => "")).outcome
      = .ok (.transfer c4_researcher)
  ∧ (∀ m ∈ (TeamChat.execute_tool_call
        ⟨"t1", "handoff_to_agent",
          { agent_name := some "researcher", handoff := some "brief",
            work_done := some "draft" }⟩
        ["handoff_to_agent"] "Coordinator"
        [{ role := "user", content := some "q" },
         { role := "assistant", content := some "plan" }]
        [] ["s1"] [("researcher", c4_researcher)] (fun _ _ => "")).messages,
      m.work_done = none) := by
  refine ⟨by decide, by decide, by decide⟩

/-- Concrete instance of the amended C4 statement: the `run_team`
executor performs the same handoff without touching the scratchpad and
carries the work inline. -/
theorem c4_handoff_to_agent_ledger_witness :
    (RunTeam.execute_tool_call
        ⟨"t1", "handoff_to_agent",
          { agent_name := some "researcher", handoff := some "brief",
            work_done := some "draft" }⟩
        ["handoff_to_agent"] "Coordinator" [{ role := "user", content := some "q" }]
        [⟨"k0", "Researcher", "old", "h", "coordinator"⟩] []
        [("researcher", c4_researcher)]).scratchpad
      = [⟨"k0", "Researcher", "old", "h", "coordinator"⟩]
  ∧ (RunTeam.execute_tool_call
        ⟨"t1", "handoff_to_agent",
          { agent_name := some "researcher", handoff := some "brief",
            work_done := some "draft" }⟩
        ["handoff_to_agent"] "Coordinator" [{ role := "user", content := some "q" }]
        [⟨"k0", "Researcher", "old", "h", "coordinator"⟩] []
        [("researcher", c4_researcher)]).messages
      = [{ role := "user", content := some "q" }]
        ++ [{ role := "assistant", content := some "", handoff := some "brief",
              agent_name := some "Coordinator", work_done := some "draft" }] := by
  have h := c4_handoff_to_agent_ledger
    ⟨"t1", "handoff_to_agent",
      { agent_name := some "researcher", handoff := some "brief",
        work_done := some "draft" }⟩
    ["handoff_to_agent"] "Coordinator" [{ role := "user", content := some "q" }]
    [⟨"k0", "Researcher", "old", "h", "coordinator"⟩] []
    [("researcher", c4_researcher)] ["handoff_to_agent"] [] ["s1"] (fun _ _ => "") rfl
  exact ⟨h.1, (h.2.1 (by decide) (by decide)).trans (by decide)⟩

/-- C2 (amended): in `team_chat.run_full_turn`, when the first tool call
of a batch is a handoff that executes to an agent transfer, the batch
reassigns the active agent exactly once, executes exactly one tool call,
breaks out of the batch, and its result does not depend on the remaining
tool calls; and a valid registered handoff call (either handoff tool)
does execute to a transfer of the looked-up agent. -/
theorem c2_single_handoff_per_batch_team_chat
    (registeredTools : List String) (reg : AgentRegistry) (g : String → ToolArgs → String)
    (ag a : Agent) (msgs : List Message) (db : TeamChat.StepsDB) (ids : List String)
    (tc : ToolCall) (rest : List ToolCall)
    (hexec : (TeamChat.execute_tool_call tc registeredTools ag.name msgs db ids reg g).outcome
        = .ok (.transfer a)) :
    (TeamChat.process_batch registeredTools reg g ag msgs db ids (tc :: rest)).agent = a
  ∧ (TeamChat.process_batch registeredTools reg g ag msgs db ids (tc :: rest)).transfers = 1
  ∧ (TeamChat.process_batch registeredTools reg g ag msgs db ids (tc :: rest)).executed = 1
  ∧ (TeamChat.process_batch registeredTools reg g ag msgs db ids (tc :: rest)).exit
      = .handoffBreak
  ∧ (∀ rest2, TeamChat.process_batch registeredTools reg g ag msgs db ids (tc :: rest)
      = TeamChat.process_batch registeredTools reg g ag msgs db ids (tc :: rest2))
  ∧ (∀ a2 : Agent, tc.name = "handoff_to_agent" →
      registeredTools.contains "handoff_to_agent" = true →
      truthy tc.args.agent_name = true → truthy tc.args.handoff = true →
      lookup_agent reg (tc.args.agent_name.getD "") = some a2 →
      (TeamChat.execute_tool_call tc registeredTools ag.name msgs db ids reg g).outcome
        = .ok (.transfer a2))
  ∧ (∀ a2 : Agent, tc.name = "handoff_to_coordinator" →
      registeredTools.contains "handoff_to_coordinator" = true →
      truthy tc.args.work_done = true → truthy tc.args.handoff = true →
      lookup_agent reg "coordinator" = some a2 →
      (TeamChat.execute_tool_call tc registeredTools ag.name msgs db ids reg g).outcome
        = .ok (.transfer a2)) := by
  have hb : ∀ r2 : List ToolCall,
      TeamChat.process_batch registeredTools reg g ag msgs db ids (tc :: r2)
        = ⟨a, (TeamChat.execute_tool_call tc registeredTools ag.name msgs db ids reg g).messages,
            (TeamChat.execute_tool_call tc registeredTools ag.name msgs db ids reg g).db,
            (TeamChat.execute_tool_call tc registeredTools ag.name msgs db ids reg g).ids,
            .handoffBreak, 1, 1⟩ := by
    intro r2
    simp only [TeamChat.process_batch]
    rw [hexec]
  refine ⟨by rw [hb], by rw [hb], by rw [hb], by rw [hb],
    fun rest2 => (hb rest).trans (hb rest2).symm, ?_, ?_⟩
  · intro a2 hn hr hv1 hv2 hlk
    have hr2 : "handoff_to_agent" ∈ registeredTools := List.mem_of_elem_eq_true hr
    simp [TeamChat.execute_tool_call, hn, hr2, hv1, hv2, hlk]
  · intro a2 hn hr hv1 hv2 hlk
    have hr2 : "handoff_to_coordinator" ∈ registeredTools := List.mem_of_elem_eq_true hr
    simp [TeamChat.execute_tool_call, hn, hr2, hv1, hv2, hlk]

/-- The coordinator agent of a small concrete team used by several witnesses. -/
def demo_coordinator : Agent :=
  { name := "Coordinator", instructions := "",
    tools := ["handoff_to_agent", "escalate_to_human", "final_outcome"] }

/-- The researcher agent of the concrete demo team. -/
def demo_researcher : Agent :=
  { name := "researcher", instructions := "", tools := ["handoff_to_coordinator"] }

/-- The writer agent of the concrete demo team. -/
def demo_writer : Agent :=
  { name := "writer", instructions := "", tools := ["handoff_to_coordinator"] }

/-- The agents dict of the concrete demo team. -/
def demo_registry : AgentRegistry :=
  [("coordinator", demo_coordinator), ("researcher", demo_researcher), ("writer", demo_writer)]

/-- A batch of two handoff calls, the first to the researcher and the
second to the writer. -/
def demo_double_handoff_batch : List ToolCall :=
  [⟨"t1", "handoff_to_agent", { agent_name := some "researcher", handoff := some "dig" }⟩,
   ⟨"t2", "handoff_to_agent", { agent_name := some "writer", handoff := some "write" }⟩]

/-- C2 counterexample: in `run_team.run_full_turn`, a batch whose first
tool call is a handoff executes BOTH tool calls and reassigns the active
agent twice (ending on the second handoff's target), so the claimed
single-handoff-per-turn policy does not hold there. -/
theorem c2_run_team_double_handoff_cex :
    (RunTeam.process_batch demo_coordinator.tools demo_registry demo_coordinator
        [{ role := "user", content := some "q" }] [] [] demo_double_handoff_batch).transfers = 2
  ∧ (RunTeam.process_batch demo_coordinator.tools demo_registry demo_coordinator
        [{ role := "user", content := some "q" }] [] [] demo_double_handoff_batch).executed = 2
  ∧ (RunTeam.process_batch demo_coordinator.tools demo_registry demo_coordinator
        [{ role := "user", content := some "q" }] [] [] demo_double_handoff_batch).agent = demo_writer
  ∧ (RunTeam.process_batch demo_coordinator.tools demo_registry demo_coordinator
        [{ role := "user", content := some "q" }] [] [] demo_double_handoff_batch).exit = .completed := by
  refine ⟨by decide, by decide, by decide, by decide⟩

/-- Concrete instance of the amended C2 statement: a two-call batch in
`team_chat` whose first call is a valid handoff executes only that call. -/
theorem c2_single_handoff_per_batch_team_chat_witness :
    (TeamChat.execute_tool_call
        ⟨"t1", "handoff_to_agent", { agent_name := some "researcher", handoff := some "dig" }⟩
        ["handoff_to_agent"] "Coordinator" [] [] ["s1"] demo_registry (fun _ _ => "")).outcome
      = .ok (.transfer demo_researcher)
  ∧ (TeamChat.process_batch ["handoff_to_agent"] demo_registry (fun _ _ => "") demo_coordinator
        [] [] ["s1"] demo_double_handoff_batch).agent = demo_researcher
  ∧ (TeamChat.process_batch ["handoff_to_agent"] demo_registry (fun _ _ => "") demo_coordinator
        [] [] ["s1"] demo_double_handoff_batch).transfers = 1
  ∧ (TeamChat.process_batch ["handoff_to_agent"] demo_registry (fun _ _ => "") demo_coordinator
        [] [] ["s1"] demo_double_handoff_batch).executed = 1 := by
  have h := c2_single_handoff_per_batch_team_chat ["handoff_to_agent"] demo_registry
    (fun _ _ => "") demo_coordinator demo_researcher [] [] ["s1"]
    ⟨"t1", "handoff_to_agent", { agent_name := some "researcher", handoff := some "dig" }⟩
    [⟨"t2", "handoff_to_agent", { agent_name := some "writer", handoff := some "write" }⟩]
    (by decide)
  exact ⟨by decide, h.1, h.2.1, h.2.2.1⟩

/-- C3: after exactly `max_retries + 1 = 3` consecutive completion-API
failures, `run_full_turn` returns from the retry-exhaustion site (the
FAILED state): the active agent of the returned `Response` is forced to
the coordinator and the returned history is exactly the single synthetic
assistant message.  Stated for `run_team.run_full_turn` (whose coordinator
comes from the `agents` dict) and `auto_agent.run_full_turn` (whose
coordinator is the module-level `coordinator_agent`). -/
theorem c3_retry_exhaustion_fails_to_coordinator
    (reg : AgentRegistry) (c ag : Agent) (input : List Message) (sp : RunTeam.Scratchpad)
    (keys : List String) (rest : List ApiOutcome)
    (t : AutoAgent.AutoTeam) (ag2 : Agent) (input2 : List Message) (rest2 : List ApiOutcome)
    (hc : lookup_agent reg "coordinator" = some c) :
    RunTeam.run_full_turn reg ag input sp keys (.failure :: .failure :: .failure :: rest)
      = some (.failed, ⟨c, [synthetic_message]⟩, input, sp)
  ∧ AutoAgent.run_full_turn t ag2 input2 (.failure :: .failure :: .failure :: rest2)
      = some (.failed, ⟨t.coordinator, [synthetic_message]⟩,
              AutoAgent.truncate_history input2) := by
  constructor
  · simp [RunTeam.run_full_turn, RunTeam.run_full_turn_aux, hc]
  · simp [AutoAgent.run_full_turn, AutoAgent.run_full_turn_aux]

/-- Concrete instance of retry exhaustion: three failures on a one-message
history. -/
theorem c3_retry_exhaustion_fails_to_coordinator_witness :
    lookup_agent demo_registry "coordinator" = some demo_coordinator
  ∧ RunTeam.run_full_turn demo_registry demo_researcher [{ role := "user", content := some "q" }]
      [] [] [.failure, .failure, .failure]
      = some (.failed, ⟨demo_coordinator, [synthetic_message]⟩,
              [{ role := "user", content := some "q" }], [])
  ∧ AutoAgent.run_full_turn ⟨"", "", "", ""⟩ (AutoAgent.AutoTeam.researcher ⟨"", "", "", ""⟩)
      [{ role := "user", content := some "q" }] [.failure, .failure, .failure]
      = some (.failed, ⟨AutoAgent.AutoTeam.coordinator ⟨"", "", "", ""⟩, [synthetic_message]⟩,
              [{ role := "user", content := some "q" }]) := by
  have h := c3_retry_exhaustion_fails_to_coordinator demo_registry demo_coordinator demo_researcher
    [{ role := "user", content := some "q" }] [] [] []
    ⟨"", "", "", ""⟩ (AutoAgent.AutoTeam.researcher ⟨"", "", "", ""⟩)
    [{ role := "user", content := some "q" }] [] (by decide)
  exact ⟨by decide, h.1, h.2.trans (by decide)⟩

namespace HubGpt

/-- Every message of the list has a present (non-null) content value. -/
def all_content_present (l : List Message) : Prop :=
  ∀ m ∈ l, m.content.isSome = true

/-- The empty list trivially has all content present. -/
theorem acp_nil : all_content_present [] :=
  fun m hm => absurd hm (List.not_mem_nil m)

/-- Concatenation preserves content presence. -/
theorem acp_append {t1 t2 : List Message} (h1 : all_content_present t1)
    (h2 : all_content_present t2) : all_content_present (t1 ++ t2) := by
  intro m hm
  rcases List.mem_append.mp hm with h | h
  exacts [h1 m h, h2 m h]

/-- A singleton with present content has all content present. -/
theorem acp_singleton {m0 : Message} (h : m0.content.isSome = true) :
    all_content_present [m0] := by
  intro m hm
  rw [List.mem_singleton] at hm
  subst hm
  exact h

end HubGpt

/-- `run_team.execute_tool_call` only ever appends to the message list,
and every message it appends carries a present (string) content. -/
theorem rt_exec_messages_extend (tc : ToolCall) (tn : List String) (an : String)
    (msgs : List Message) (sp : RunTeam.Scratchpad) (keys : List String)
    (reg : AgentRegistry) :
    ∃ t, (RunTeam.execute_tool_call tc tn an msgs sp keys reg).messages = msgs ++ t
      ∧ all_content_present t := by
  simp only [RunTeam.execute_tool_call]
  repeat' split
  all_goals
    first
    | exact ⟨[], (List.append_nil msgs).symm, acp_nil⟩
    | exact ⟨_, rfl, acp_singleton rfl⟩

/-- The `run_team` batch loop only ever appends to the message list, and
every message it appends carries a present content. -/
theorem rt_batch_messages_extend (tn : List String) (reg : AgentRegistry) :
    ∀ (tcs : List ToolCall) (ag : Agent) (msgs : List Message) (sp : RunTeam.Scratchpad)
      (keys : List String),
      ∃ t, (RunTeam.process_batch tn reg ag msgs sp keys tcs).messages = msgs ++ t
        ∧ all_content_present t
  | [], ag, msgs, sp, keys => ⟨[], (List.append_nil msgs).symm, acp_nil⟩
  | tc :: rest, ag, msgs, sp, keys => by
    obtain ⟨t1, ht1, hc1⟩ := rt_exec_messages_extend tc tn ag.name msgs sp keys reg
    simp only [RunTeam.process_batch]
    split
    · exact ⟨t1, ht1, hc1⟩
    · rename_i a heq
      split
      · refine ⟨t1 ++ [{ role := "assistant", content := some ("Transferred to " ++ a.name ++ ". Adopting new role.") }], ?_, ?_⟩
        · rw [ht1, List.append_assoc]
        · exact acp_append hc1 (acp_singleton rfl)
      · obtain ⟨t2, ht2, hc2⟩ := rt_batch_messages_extend tn reg rest a
          ((RunTeam.execute_tool_call tc tn ag.name msgs sp keys reg).messages
            ++ [{ role := "assistant", content := some ("Transferred to " ++ a.name ++ ". Adopting new role.") }])
          (RunTeam.execute_tool_call tc tn ag.name msgs sp keys reg).scratchpad
          (RunTeam.execute_tool_call tc tn ag.name msgs sp keys reg).keys
        refine ⟨t1 ++ ([{ role := "assistant", content := some ("Transferred to " ++ a.name ++ ". Adopting new role.") }] ++ t2), ?_, ?_⟩
        · rw [ht2, ht1]
          simp [List.append_assoc]
        · exact acp_append hc1 (acp_append (acp_singleton rfl) hc2)
    · rename_i p heq
      split
      · refine ⟨t1 ++ [{ role := "assistant", content := some p }], ?_, ?_⟩
        · rw [ht1, List.append_assoc]
        · exact acp_append hc1 (acp_singleton rfl)
      · obtain ⟨t2, ht2, hc2⟩ := rt_batch_messages_extend tn reg rest ag
          ((RunTeam.execute_tool_call tc tn ag.name msgs sp keys reg).messages
            ++ [{ role := "assistant", content := some p }])
          (RunTeam.execute_tool_call tc tn ag.name msgs sp keys reg).scratchpad
          (RunTeam.execute_tool_call tc tn ag.name msgs sp keys reg).keys
        refine ⟨t1 ++ ([{ role := "assistant", content := some p }] ++ t2), ?_, ?_⟩
        · rw [ht2, ht1]
          simp [List.append_assoc]
        · exact acp_append hc1 (acp_append (acp_singleton rfl) hc2)

/-- Every successful return of the `run_team` turn loop satisfies: the
working history at return time extends the history the iteration started
from by appended messages whose content is always present; a FAILED exit
returns exactly the synthetic message; any other exit returns the
`numInit`-suffix of the working history. -/
theorem rt_aux_spec (reg : AgentRegistry) (numInit : Nat) :
    ∀ (oracle : List ApiOutcome) (ag : Agent) (msgs : List Message)
      (sp : RunTeam.Scratchpad) (keys : List String) (retry : Nat)
      (out : ExitKind × Response × List Message × RunTeam.Scratchpad),
      RunTeam.run_full_turn_aux reg numInit ag msgs sp keys retry oracle = some out →
      (∃ t, out.2.2.1 = msgs ++ t ∧ all_content_present t)
      ∧ (out.1 = .failed → out.2.1.messages = [synthetic_message])
      ∧ (out.1 ≠ .failed → out.2.1.messages = out.2.2.1.drop numInit)
  | [], ag, msgs, sp, keys, retry, out => by
    intro h
    exact absurd h (by simp [RunTeam.run_full_turn_aux])
  | .failure :: rest, ag, msgs, sp, keys, retry, out => by
    intro h
    simp only [RunTeam.run_full_turn_aux] at h
    split at h
    · split at h
      · injection h with h2
        subst h2
        exact ⟨⟨[], (List.append_nil msgs).symm, acp_nil⟩, fun _ => rfl,
          fun hne => absurd rfl hne⟩
      · exact absurd h (by simp)
    · exact rt_aux_spec reg numInit rest ag msgs sp keys (retry + 1) out h
  | .success c tcs :: rest, ag, msgs, sp, keys, retry, out => by
    intro h
    simp only [RunTeam.run_full_turn_aux] at h
    split at h
    · injection h with h2
      subst h2
      exact ⟨⟨[mk_assistant_message c tcs], rfl, acp_singleton rfl⟩,
        fun hf => ExitKind.noConfusion hf, fun _ => rfl⟩
    · obtain ⟨t2, ht2, hc2⟩ := rt_batch_messages_extend ag.tools reg tcs ag
        (msgs ++ [mk_assistant_message c tcs]) sp keys
      split at h
      · injection h with h2
        subst h2
        refine ⟨⟨[mk_assistant_message c tcs] ++ t2, ?_, ?_⟩,
          fun hf => ExitKind.noConfusion hf, fun _ => rfl⟩
        · rw [ht2]; simp [List.append_assoc]
        · exact acp_append (acp_singleton rfl) hc2
      · obtain ⟨⟨t3, ht3, hc3⟩, h2, h3⟩ := rt_aux_spec reg numInit rest _ _ _ _ retry out h
        refine ⟨⟨[mk_assistant_message c tcs] ++ t2 ++ t3, ?_, ?_⟩, h2, h3⟩
        · rw [ht3, ht2]; simp [List.append_assoc]
        · exact acp_append (acp_append (acp_singleton rfl) hc2) hc3
      · exact absurd h (by simp)
      · split at h
        · split at h
          · injection h with h2
            subst h2
            refine ⟨⟨[mk_assistant_message c tcs] ++ t2, ?_, ?_⟩, fun _ => rfl,
              fun hne => absurd rfl hne⟩
            · rw [ht2]; simp [List.append_assoc]
            · exact acp_append (acp_singleton rfl) hc2
          · exact absurd h (by simp)
        · obtain ⟨⟨t3, ht3, hc3⟩, h2, h3⟩ := rt_aux_spec reg numInit rest _ _ _ _ (retry + 1) out h
          refine ⟨⟨[mk_assistant_message c tcs] ++ t2 ++ t3, ?_, ?_⟩, h2, h3⟩
          · rw [ht3, ht2]; simp [List.append_assoc]
          · exact acp_append (acp_append (acp_singleton rfl) hc2) hc3

/-- C10 (amended): `run_team.run_full_turn` works on a copy of the
caller's list (threading in the model) and the returned
`Response.messages` is exactly the sequence of messages appended during
the turn — the suffix of the final working history past the caller's
original length — except on retry exhaustion, where it is the single
synthetic error message.  (In `auto_agent.run_full_turn` this fails for
histories longer than 10 because the working copy is truncated after
`num_init_messages` is taken; see the counterexample.) -/
theorem c10_run_team_response_is_appended_suffix
    (reg : AgentRegistry) (ag : Agent) (input : List Message) (sp : RunTeam.Scratchpad)
    (keys : List String) (oracle : List ApiOutcome)
    (out : ExitKind × Response × List Message × RunTeam.Scratchpad)
    (h : RunTeam.run_full_turn reg ag input sp keys oracle = some out) :
    (out.1 = .failed → out.2.1.messages = [synthetic_message])
  ∧ (out.1 ≠ .failed → ∃ t, out.2.2.1 = input ++ t ∧ out.2.1.messages = t) := by
  obtain ⟨⟨t, ht, _⟩, h2, h3⟩ := rt_aux_spec reg input.length oracle ag input sp keys 0 out h
  refine ⟨h2, fun hne => ⟨t, ht, ?_⟩⟩
  rw [h3 hne, ht, List.drop_left]

/-- Concrete instance of the appended-suffix property: a single
content-only response on a one-message history. -/
theorem c10_run_team_response_is_appended_suffix_witness :
    RunTeam.run_full_turn demo_registry demo_coordinator
        [{ role := "user", content := some "q" }] [] [] [.success (some "ok") []]
      = some (.toCaller,
          ⟨demo_coordinator, [mk_assistant_message (some "ok") []]⟩,
          [{ role := "user", content := some "q" }] ++ [mk_assistant_message (some "ok") []],
          [])
  ∧ (∃ t, ([{ role := "user", content := some "q" }]
        ++ [mk_assistant_message (some "ok") []] : List Message)
        = [{ role := "user", content := some "q" }] ++ t
      ∧ [mk_assistant_message (some "ok") []] = t) := by
  refine ⟨by decide, ?_⟩
  have h := c10_run_team_response_is_appended_suffix demo_registry demo_coordinator
    [{ role := "user", content := some "q" }] [] [] [.success (some "ok") []]
    (.toCaller, ⟨demo_coordinator, [mk_assistant_message (some "ok") []]⟩,
      [{ role := "user", content := some "q" }] ++ [mk_assistant_message (some "ok") []], [])
    (by decide)
  exact h.2 (by decide)

/-- C10 counterexample: in `auto_agent.run_full_turn` with an 11-message
history, the turn appends one assistant message (it is present in the
final working history and was not part of the input), yet the returned
`Response.messages` is empty — the appended message is lost because
`num_init_messages` indexes into the truncated working copy. -/
theorem c10_auto_agent_truncation_drops_appended_cex :
    AutoAgent.run_full_turn ⟨"", "", "", ""⟩ (AutoAgent.AutoTeam.coordinator ⟨"", "", "", ""⟩)
        (List.replicate 11 { role := "user", content := some "u" })
        [.success (some "ok") []]
      = some (.toCaller, ⟨AutoAgent.AutoTeam.coordinator ⟨"", "", "", ""⟩, []⟩,
          List.replicate 10 ({ role := "user", content := some "u" } : Message)
            ++ [mk_assistant_message (some "ok") []])
  ∧ mk_assistant_message (some "ok") []
      ∈ List.replicate 10 ({ role := "user", content := some "u" } : Message)
          ++ [mk_assistant_message (some "ok") []]
  ∧ mk_assistant_message (some "ok") []
      ∉ List.replicate 11 ({ role := "user", content := some "u" } : Message) := by
  refine ⟨by decide, by decide, by decide⟩

/-- C6: model content is normalised before storage.  The assistant message
built from a model response stores `content or ""` — in particular `None`
content becomes the empty string, and the stored value is always a
present string; moreover every message in the `Response` returned by
`run_team.run_full_turn` (the messages appended during the turn, or the
synthetic failure message) carries a present string content. -/
theorem c6_content_normalized_to_string :
    (∀ tcs, (mk_assistant_message none tcs).content = some "")
  ∧ (∀ (c : Option String) (tcs : List ToolCall),
      (mk_assistant_message c tcs).content = some (c.getD ""))
  ∧ (∀ (reg : AgentRegistry) (ag : Agent) (input : List Message)
       (sp : RunTeam.Scratchpad) (keys : List String) (oracle : List ApiOutcome)
       (out : ExitKind × Response × List Message × RunTeam.Scratchpad),
      RunTeam.run_full_turn reg ag input sp keys oracle = some out →
      ∀ m ∈ out.2.1.messages, m.content.isSome = true) := by
  refine ⟨fun tcs => rfl, fun c tcs => rfl, ?_⟩
  intro reg ag input sp keys oracle out h m hm
  obtain ⟨⟨t, ht, hc⟩, h2, h3⟩ := rt_aux_spec reg input.length oracle ag input sp keys 0 out h
  by_cases hf : out.1 = .failed
  · rw [h2 hf] at hm
    rw [List.mem_singleton] at hm
    subst hm
    rfl
  · rw [h3 hf, ht, List.drop_left] at hm
    exact hc m hm

/-- Concrete instance of content normalisation: a `None`-content model
response stored as the empty string, on a completed run. -/
theorem c6_content_normalized_to_string_witness :
    (mk_assistant_message none []).content = some ""
  ∧ RunTeam.run_full_turn demo_registry demo_coordinator [] [] [] [.success none []]
      = some (.toCaller, ⟨demo_coordinator, [mk_assistant_message none []]⟩,
          [mk_assistant_message none []], [])
  ∧ (∀ m ∈ (Response.mk demo_coordinator [mk_assistant_message none []]).messages,
      m.content.isSome = true) := by
  refine ⟨(c6_content_normalized_to_string).1 [], by decide, ?_⟩
  exact (c6_content_normalized_to_string).2.2 demo_registry demo_coordinator [] [] []
    [.success none []]
    (.toCaller, ⟨demo_coordinator, [mk_assistant_message none []]⟩,
      [mk_assistant_message none []], [])
    (by decide)

